import Mathlib

/-!
# MIDI volume gate: `MidiVolumeGateAudioProcessor::processBlock`

A shallow embedding of `Source/PluginProcessor.cpp` / `Source/PluginProcessor.h`
and of the buffer drain of `Source/PluginEditor.cpp` (`timerCallback`).

Conventions of the embedding

* `float` values (gate level, audio samples) are rationals: the properties
  proved here are the exact-arithmetic ones.
* A `juce::MidiMessage` is its first three raw bytes; the `juce::MidiMessage`
  queries used by the plugin (`isNoteOn`, `isNoteOff`, `getNoteNumber`,
  `getVelocity`) are written as the JUCE library defines them on those bytes.
* A `juce::MidiBuffer` is the list of its events in iteration order.
* `juce::Time::currentTimeMillis()` is an input: `clock i` is the reading taken
  while the scan handles the `i`-th event of the batch.
* The C++ `int` counter wraps at 32 bits.
-/

namespace MidiVolumeGate

/-! ## JUCE data: MIDI messages and MIDI buffers -/

/-- Raw bytes of a `juce::MidiMessage`: `getRawData()[0..2]`. -/
structure MidiMessage where
  status : Nat
  data1 : Nat
  data2 : Nat
deriving DecidableEq

/-- JUCE `MidiMessage::isNoteOn (bool returnTrueForVelocity0)`:
`((data[0] & 0xf0) == 0x90) && (returnTrueForVelocity0 || data[2] != 0)`.
The plugin calls it with the default argument `false`. -/
def MidiMessage.isNoteOn (m : MidiMessage) (returnTrueForVelocity0 : Bool) : Bool :=
  (m.status &&& 0xf0 == 0x90) && (returnTrueForVelocity0 || m.data2 != 0)

/-- JUCE `MidiMessage::isNoteOff (bool returnTrueForNoteOnVelocity0)`:
`((data[0] & 0xf0) == 0x80) || (returnTrueForNoteOnVelocity0 && data[2] == 0 && (data[0] & 0xf0) == 0x90)`.
The plugin calls it with the default argument `true`. -/
def MidiMessage.isNoteOff (m : MidiMessage) (returnTrueForNoteOnVelocity0 : Bool) : Bool :=
  (m.status &&& 0xf0 == 0x80)
    || (returnTrueForNoteOnVelocity0 && m.data2 == 0 && (m.status &&& 0xf0 == 0x90))

/-- JUCE `MidiMessage::isNoteOnOrOff()`. -/
def MidiMessage.isNoteOnOrOff (m : MidiMessage) : Bool :=
  (m.status &&& 0xf0 == 0x90) || (m.status &&& 0xf0 == 0x80)

/-- JUCE `MidiMessage::getNoteNumber()`: `getRawData()[1]` as an `int`. -/
def MidiMessage.getNoteNumber (m : MidiMessage) : Int :=
  (m.data1 : Int)

/-- JUCE `MidiMessage::getVelocity()`: `data[2]` for a note-on or note-off, else `0`. -/
def MidiMessage.getVelocity (m : MidiMessage) : Nat :=
  if m.isNoteOnOrOff then m.data2 else 0

/-- JUCE `MidiMessage::getChannel()`: `(data[0] & 0xf) + 1` for a channel message, else `0`. -/
def MidiMessage.getChannel (m : MidiMessage) : Nat :=
  if m.status &&& 0xf0 != 0xf0 then (m.status &&& 0xf) + 1 else 0

/-- The raw bytes the debug log dumps, in order. -/
def MidiMessage.getRawData (m : MidiMessage) : List Nat :=
  [m.status, m.data1, m.data2]

/-- One element of a `juce::MidiBuffer` iteration (`juce::MidiMessageMetadata`). -/
structure MidiMetadata where
  message : MidiMessage
  samplePosition : Int
deriving DecidableEq

/-- A `juce::MidiBuffer`, as the list of its events in iteration order. -/
abbrev MidiBuffer := List MidiMetadata

/-- JUCE `MidiBuffer::addEvent (message, sampleNumber)`: the event is inserted in
front of the first stored event whose position is greater than `sampleNumber`
(`MidiBufferHelpers::findEventAfter`), hence after all events at the same position. -/
def MidiBuffer.addEvent (buf : MidiBuffer) (message : MidiMessage) (sampleNumber : Int) :
    MidiBuffer :=
  buf.takeWhile (fun e => decide (e.samplePosition ≤ sampleNumber))
    ++ ⟨message, sampleNumber⟩
    :: buf.dropWhile (fun e => decide (e.samplePosition ≤ sampleNumber))

/-- Events of a buffer are held in non-decreasing sample position. -/
def MidiBuffer.Ordered (buf : MidiBuffer) : Prop :=
  buf.Pairwise (fun a b => a.samplePosition ≤ b.samplePosition)

instance (buf : MidiBuffer) : Decidable (MidiBuffer.Ordered buf) := by
  unfold MidiBuffer.Ordered
  infer_instance

/-- A `juce::AudioBuffer<float>`: one list of samples per channel, all of the
same length. -/
abbrev AudioBuffer := List (List ℚ)

/-- `AudioBuffer::getNumChannels()`. -/
def AudioBuffer.getNumChannels (buffer : AudioBuffer) : Nat :=
  buffer.length

/-- `AudioBuffer::getNumSamples()`. -/
def AudioBuffer.getNumSamples (buffer : AudioBuffer) : Nat :=
  match buffer with
  | [] => 0
  | channelData :: _ => channelData.length

/-! ## Processor state (`PluginProcessor.h`) -/

/-- The arguments from which `processBlock` formats `state.debugInfo`, with one
raw-byte dump per MIDI event. -/
structure BlockReport where
  block : Int
  midiEvents : Nat
  channels : Nat
  bufferSize : Nat
  gateLevel : ℚ
  triggerNote : Int
  log : List (List Nat)
deriving DecidableEq

/-- `MidiVolumeGateAudioProcessor::PluginState`. `debugInfo` is `none` for the
empty string of a new processor. -/
structure PluginState where
  lastNote : Int
  wasNoteOn : Bool
  timestamp : Int
  messageCount : Nat
  debugInfo : Option BlockReport
  isAudioRunning : Bool
  currentGateLevel : ℚ
deriving DecidableEq

/-- The data members of `MidiVolumeGateAudioProcessor` that `processBlock` and
the editor touch. -/
structure Processor where
  gateLevel : ℚ
  processBlockCallCount : Int
  midiMessages : MidiBuffer
  state : PluginState
deriving DecidableEq

/-- A newly constructed processor: the member initialisers of the header. -/
def Processor.fresh : Processor :=
  { gateLevel := 0
    processBlockCallCount := 0
    midiMessages := []
    state :=
      { lastNote := -1
        wasNoteOn := false
        timestamp := 0
        messageCount := 0
        debugInfo := none
        isAudioRunning := false
        currentGateLevel := 0 } }

/-- Value of a C++ `int` after an arithmetic result `x` (32-bit two's complement). -/
def wrapInt32 (x : Int) : Int :=
  (x + 2147483648) % 4294967296 - 2147483648

/-! ## `processBlock` -/

/-- Body of the gate-control loop for one message (lines 77-89): the note-on
branch, the note-off branch, or nothing. -/
def gateStep (triggerNote : Int) (now : Int) (p : Processor) (message : MidiMessage) :
    Processor :=
  if message.isNoteOn false && message.getNoteNumber == triggerNote then
    { p with
      gateLevel := (message.getVelocity : ℚ) / 127
      state := { p.state with
        lastNote := message.getNoteNumber
        wasNoteOn := true
        timestamp := now } }
  else if message.isNoteOff true && message.getNoteNumber == triggerNote then
    { p with
      gateLevel := 0
      state := { p.state with
        wasNoteOn := false
        timestamp := now } }
  else
    p

/-- The loop of lines 69-90 over the incoming batch, from event index `i`: each
event is added to `processedMidi` and then run through `gateStep`. -/
def midiLoop (triggerNote : Int) (clock : Nat → Int) :
    Nat → List MidiMetadata → MidiBuffer × Processor → MidiBuffer × Processor
  | _, [], acc => acc
  | i, metadata :: rest, acc =>
      midiLoop triggerNote clock (i + 1) rest
        (acc.1.addEvent metadata.message metadata.samplePosition,
         gateStep triggerNote (clock i) acc.2 metadata.message)

/-- The loop of lines 57-61: every incoming event is added to a buffer. -/
def storeEvents (incoming : MidiBuffer) (target : MidiBuffer) : MidiBuffer :=
  incoming.foldl (fun buf metadata => buf.addEvent metadata.message metadata.samplePosition) target

/-- The loop of lines 121-133: each channel is scaled by the gate level when the
level is positive and cleared otherwise. -/
def applyGate (gateLevel : ℚ) (buffer : AudioBuffer) : AudioBuffer :=
  buffer.map (fun channelData =>
    if gateLevel > 0 then channelData.map (fun sample => sample * gateLevel)
    else channelData.map (fun _ => 0))

/-- What a `processBlock` call leaves behind: the processor, the caller's audio
buffer and the caller's MIDI buffer. -/
structure BlockResult where
  processor : Processor
  buffer : AudioBuffer
  midiMessages : MidiBuffer

/-- `MidiVolumeGateAudioProcessor::processBlock (buffer, midiMessages)`, with the
value of the `triggerNote` parameter and the clock readings as inputs. -/
def processBlock (p : Processor) (triggerNote : Int) (clock : Nat → Int)
    (buffer : AudioBuffer) (midiMessages : MidiBuffer) : BlockResult :=
  -- state.isAudioRunning = true; this->midiMessages.clear(); store the batch
  let p1 : Processor :=
    { p with
      state := { p.state with isAudioRunning := true }
      midiMessages := storeEvents midiMessages [] }
  -- gate control scan, building processedMidi
  let scanned := midiLoop triggerNote clock 0 midiMessages ([], p1)
  -- midiMessages.swapWith (processedMidi)
  let midiOut : MidiBuffer := scanned.1
  let p2 := scanned.2
  -- debug snapshot, with processBlockCallCount++
  let report : BlockReport :=
    { block := p2.processBlockCallCount
      midiEvents := midiOut.length
      channels := AudioBuffer.getNumChannels buffer
      bufferSize := AudioBuffer.getNumSamples buffer
      gateLevel := p2.gateLevel
      triggerNote := triggerNote
      log := midiOut.map (fun metadata => metadata.message.getRawData) }
  let p3 : Processor :=
    { p2 with
      processBlockCallCount := wrapInt32 (p2.processBlockCallCount + 1)
      state := { p2.state with debugInfo := some report } }
  -- gate applied to the audio, then the last two state fields
  { processor :=
      { p3 with
        state := { p3.state with
          currentGateLevel := p3.gateLevel
          messageCount := midiOut.length } }
    buffer := applyGate p3.gateLevel buffer
    midiMessages := midiOut }

/-- One host call of `processBlock`: the parameter value, the clock and the two buffers. -/
structure BlockCall where
  triggerNote : Int
  clock : Nat → Int
  buffer : AudioBuffer
  midiMessages : MidiBuffer

/-- The processor after a sequence of `processBlock` calls, oldest first. -/
def runBlocks (calls : List BlockCall) (p : Processor) : Processor :=
  calls.foldl
    (fun q call => (processBlock q call.triggerNote call.clock call.buffer call.midiMessages).processor)
    p

/-! ## Editor side (`PluginEditor.cpp`) -/

/-- The editor members that `timerCallback` writes. `keyboardEvents` is the
sequence of messages handed to `keyboardState.processNextMidiEvent`. -/
structure Editor where
  keyboardEvents : List MidiMessage
  lastProcessBlockCount : Int
  gateOpen : Bool
  isProcessing : Bool
  midiStatus : Nat
  debugDisplay : Option BlockReport

/-- `MidiVolumeGateAudioProcessorEditor::timerCallback`: drains and clears the
processor's MIDI buffer, then refreshes the status displays. -/
def timerCallback (p : Processor) (ed : Editor) : Processor × Editor :=
  let drained : List MidiMessage :=
    (p.midiMessages.filter (fun metadata =>
      metadata.message.isNoteOn false || metadata.message.isNoteOff true)).map
      (fun metadata => metadata.message)
  let p1 : Processor :=
    if !p.midiMessages.isEmpty then { p with midiMessages := [] } else p
  (p1,
   { keyboardEvents := ed.keyboardEvents ++ drained
     lastProcessBlockCount := p1.processBlockCallCount
     gateOpen := decide (p1.gateLevel > 0)
     isProcessing := p1.processBlockCallCount != ed.lastProcessBlockCount
     midiStatus := p1.state.messageCount
     debugDisplay := p1.state.debugInfo })

/-! ## Vocabulary of the properties -/

/-- An event on which one of the two branches of the gate scan fires: a note-on
or note-off (as the code tests them) on the trigger note. -/
def qualifies (triggerNote : Int) (metadata : MidiMetadata) : Bool :=
  (metadata.message.isNoteOn false || metadata.message.isNoteOff true)
    && metadata.message.getNoteNumber == triggerNote

/-- The last event of the batch, in scan order, that qualifies. -/
def lastQualifying (triggerNote : Int) (midi : MidiBuffer) : Option MidiMetadata :=
  (midi.filter (qualifies triggerNote)).getLast?

/-- The part of the processor that the gate scan decides and the split property compares. -/
def gateCore (p : Processor) : ℚ × Bool × Int :=
  (p.gateLevel, p.state.wasNoteOn, p.state.lastNote)

/-- The open/closed flag agrees with the sign of the level. -/
def GateConsistent (p : Processor) : Prop :=
  p.state.wasNoteOn = true ↔ 0 < p.gateLevel

/-! ## The scan: auxiliary facts -/

theorem lastQualifying_cons (t : Int) (md : MidiMetadata) (rest : MidiBuffer) :
    lastQualifying t (md :: rest) =
      match lastQualifying t rest with
      | some x => some x
      | none => if qualifies t md then some md else none := by
  unfold lastQualifying
  by_cases h : qualifies t md = true
  · rw [List.filter_cons_of_pos h]
    cases hf : List.filter (qualifies t) rest with
    | nil => simp [h]
    | cons x xs =>
      rw [List.getLast?_cons_cons]
      cases hl : (x :: xs).getLast? with
      | none => simp at hl
      | some y => rfl
  · rw [List.filter_cons_of_neg h]
    cases hf : List.filter (qualifies t) rest with
    | nil => simp [h]
    | cons x xs =>
      cases hl : (x :: xs).getLast? with
      | none => simp at hl
      | some y => rfl

theorem lastQualifying_eq_none_iff (t : Int) (midi : MidiBuffer) :
    lastQualifying t midi = none ↔ ∀ md ∈ midi, qualifies t md = false := by
  unfold lastQualifying
  simp [List.getLast?_eq_none_iff, List.filter_eq_nil_iff]

theorem qualifies_of_lastQualifying {t : Int} {midi : MidiBuffer} {ev : MidiMetadata}
    (h : lastQualifying t midi = some ev) : qualifies t ev = true ∧ ev ∈ midi := by
  unfold lastQualifying at h
  have hm : ev ∈ List.filter (qualifies t) midi := List.mem_of_getLast?_eq_some h
  rw [List.mem_filter] at hm
  exact ⟨hm.2, hm.1⟩

theorem gateStep_of_not_qualifies {t : Int} {md : MidiMetadata} (now : Int) (p : Processor)
    (h : qualifies t md = false) : gateStep t now p md.message = p := by
  unfold qualifies at h
  unfold gateStep
  by_cases hn : md.message.getNoteNumber = t
  · simp [hn] at h
    simp [h.1, h.2]
  · simp [hn]

theorem midiLoop_fst (t : Int) (clock : Nat → Int) (midi : MidiBuffer) :
    ∀ (i : Nat) (acc : MidiBuffer × Processor),
      (midiLoop t clock i midi acc).1 = storeEvents midi acc.1 := by
  induction midi with
  | nil => intro i acc; rfl
  | cons md rest ih =>
    intro i acc
    simp only [midiLoop, storeEvents, List.foldl_cons]
    rw [ih]
    rfl

theorem midiLoop_snd_of_no_qualifying (t : Int) (clock : Nat → Int) (midi : MidiBuffer) :
    ∀ (i : Nat) (acc : MidiBuffer × Processor),
      (∀ md ∈ midi, qualifies t md = false) → (midiLoop t clock i midi acc).2 = acc.2 := by
  induction midi with
  | nil => intro i acc _; rfl
  | cons md rest ih =>
    intro i acc h
    simp only [midiLoop]
    rw [ih _ _ (fun x hx => h x (List.mem_cons_of_mem _ hx))]
    exact gateStep_of_not_qualifies _ _ (h md (List.mem_cons_self _ _))

/-- The scan ends in the gate step of the last qualifying event. -/
theorem midiLoop_snd_of_lastQualifying (t : Int) (clock : Nat → Int) (midi : MidiBuffer)
    (ev : MidiMetadata) :
    ∀ (i : Nat) (acc : MidiBuffer × Processor),
      lastQualifying t midi = some ev →
        ∃ (now : Int) (q : Processor), (midiLoop t clock i midi acc).2 = gateStep t now q ev.message := by
  induction midi with
  | nil => intro i acc h; simp [lastQualifying] at h
  | cons md rest ih =>
    intro i acc h
    rw [lastQualifying_cons] at h
    cases hr : lastQualifying t rest with
    | some x =>
      rw [hr] at h
      simp only [Option.some.injEq] at h
      subst h
      simp only [midiLoop]
      exact ih _ _ hr
    | none =>
      rw [hr] at h
      by_cases hq : qualifies t md = true
      · simp [hq] at h
        subst h
        simp only [midiLoop]
        rw [midiLoop_snd_of_no_qualifying t clock rest _ _ ((lastQualifying_eq_none_iff t rest).1 hr)]
        exact ⟨clock i, acc.2, rfl⟩
      · simp [hq] at h

theorem processBlock_gateLevel (p : Processor) (t : Int) (clock : Nat → Int)
    (buffer : AudioBuffer) (midi : MidiBuffer) :
    (processBlock p t clock buffer midi).processor.gateLevel
      = (midiLoop t clock 0 midi
          ([], { p with
                 state := { p.state with isAudioRunning := true }
                 midiMessages := storeEvents midi [] })).2.gateLevel := rfl

theorem processBlock_buffer (p : Processor) (t : Int) (clock : Nat → Int)
    (buffer : AudioBuffer) (midi : MidiBuffer) :
    (processBlock p t clock buffer midi).buffer
      = applyGate (processBlock p t clock buffer midi).processor.gateLevel buffer := rfl

theorem applyGate_eq_scale (g : ℚ) (hg : 0 ≤ g) (buffer : AudioBuffer) :
    applyGate g buffer = buffer.map (fun channelData => channelData.map (fun sample => sample * g)) := by
  unfold applyGate
  rcases lt_or_eq_of_le hg with h | h
  · simp [h]
  · subst h
    simp

theorem gateStep_noteOn_wire (t now : Int) (q : Processor) (ev : MidiMetadata)
    (hq : qualifies t ev = true) (hon : ev.message.isNoteOn true = true) :
    (gateStep t now q ev.message).gateLevel = (ev.message.getVelocity : ℚ) / 127 := by
  unfold qualifies at hq
  unfold gateStep
  simp only [Bool.and_eq_true, Bool.or_eq_true, beq_iff_eq] at hq
  obtain ⟨hk, hn⟩ := hq
  by_cases h1 : ev.message.isNoteOn false = true
  · simp [h1, hn]
  · have h2 : ev.message.isNoteOff true = true := by
      rcases hk with hk | hk
      · exact absurd hk h1
      · exact hk
    have hv : ev.message.getVelocity = 0 := by
      unfold MidiMessage.getVelocity
      unfold MidiMessage.isNoteOn at h1 hon
      simp at h1 hon
      simp [hon] at h1
      simp [h1]
    simp [h1, h2, hn, hv]

theorem gateStep_noteOff (t now : Int) (q : Processor) (ev : MidiMetadata)
    (hq : qualifies t ev = true) (hoff : ev.message.isNoteOff true = true) :
    gateStep t now q ev.message
      = { q with
          gateLevel := 0
          state := { q.state with wasNoteOn := false, timestamp := now } } := by
  unfold qualifies at hq
  simp only [Bool.and_eq_true, Bool.or_eq_true, beq_iff_eq] at hq
  have h1 : ev.message.isNoteOn false = false := by
    unfold MidiMessage.isNoteOff at hoff
    unfold MidiMessage.isNoteOn
    simp at hoff ⊢
    intro h9
    rcases hoff with h | h
    · omega
    · exact h.1
  unfold gateStep
  simp [h1, hoff, hq.2]

theorem gateStep_noteOn (t now : Int) (q : Processor) (ev : MidiMetadata)
    (hq : qualifies t ev = true) (hon : ev.message.isNoteOn false = true) :
    gateStep t now q ev.message
      = { q with
          gateLevel := (ev.message.getVelocity : ℚ) / 127
          state := { q.state with lastNote := t, wasNoteOn := true, timestamp := now } } := by
  unfold qualifies at hq
  simp only [Bool.and_eq_true, Bool.or_eq_true, beq_iff_eq] at hq
  unfold gateStep
  simp [hon, hq.2]

theorem addEvent_of_all_le (buf : MidiBuffer) (m : MidiMessage) (n : Int)
    (h : ∀ e ∈ buf, e.samplePosition ≤ n) :
    MidiBuffer.addEvent buf m n = buf ++ [⟨m, n⟩] := by
  unfold MidiBuffer.addEvent
  have h1 : buf.takeWhile (fun e => decide (e.samplePosition ≤ n)) = buf :=
    List.takeWhile_eq_self_iff.2 (fun e he => by simpa using h e he)
  have h2 : buf.dropWhile (fun e => decide (e.samplePosition ≤ n)) = [] :=
    List.dropWhile_eq_nil_iff.2 (fun e he => by simpa using h e he)
  rw [h1, h2]

theorem storeEvents_of_ordered (incoming : MidiBuffer) :
    ∀ target : MidiBuffer, MidiBuffer.Ordered (target ++ incoming) →
      storeEvents incoming target = target ++ incoming := by
  induction incoming with
  | nil => intro target _; simp [storeEvents]
  | cons md rest ih =>
    intro target h
    have hle : ∀ e ∈ target, e.samplePosition ≤ md.samplePosition := by
      intro e he
      have hp := List.pairwise_append.1 h
      exact hp.2.2 e he md (List.mem_cons_self _ _)
    have hstep : storeEvents (md :: rest) target
        = storeEvents rest (MidiBuffer.addEvent target md.message md.samplePosition) := rfl
    rw [hstep, addEvent_of_all_le target md.message md.samplePosition hle]
    have h2 : MidiBuffer.Ordered ((target ++ [md]) ++ rest) := by
      simpa [List.append_assoc] using h
    have := ih (target ++ [md]) h2
    simpa [List.append_assoc] using this

theorem processBlock_midiMessages (p : Processor) (t : Int) (clock : Nat → Int)
    (buffer : AudioBuffer) (midi : MidiBuffer) :
    (processBlock p t clock buffer midi).midiMessages = storeEvents midi [] := by
  show (midiLoop t clock 0 midi _).1 = _
  rw [midiLoop_fst]

theorem gateStep_midiMessages (t now : Int) (q : Processor) (m : MidiMessage) :
    (gateStep t now q m).midiMessages = q.midiMessages := by
  unfold gateStep
  split
  · rfl
  · split <;> rfl

theorem gateStep_callCount (t now : Int) (q : Processor) (m : MidiMessage) :
    (gateStep t now q m).processBlockCallCount = q.processBlockCallCount := by
  unfold gateStep
  split
  · rfl
  · split <;> rfl

theorem midiLoop_midiMessages (t : Int) (clock : Nat → Int) (midi : MidiBuffer) :
    ∀ (i : Nat) (acc : MidiBuffer × Processor),
      (midiLoop t clock i midi acc).2.midiMessages = acc.2.midiMessages := by
  induction midi with
  | nil => intro i acc; rfl
  | cons md rest ih =>
    intro i acc
    simp only [midiLoop]
    rw [ih, gateStep_midiMessages]

theorem midiLoop_callCount (t : Int) (clock : Nat → Int) (midi : MidiBuffer) :
    ∀ (i : Nat) (acc : MidiBuffer × Processor),
      (midiLoop t clock i midi acc).2.processBlockCallCount = acc.2.processBlockCallCount := by
  induction midi with
  | nil => intro i acc; rfl
  | cons md rest ih =>
    intro i acc
    simp only [midiLoop]
    rw [ih, gateStep_callCount]

theorem processBlock_stored_midi (p : Processor) (t : Int) (clock : Nat → Int)
    (buffer : AudioBuffer) (midi : MidiBuffer) :
    (processBlock p t clock buffer midi).processor.midiMessages = storeEvents midi [] := by
  show (midiLoop t clock 0 midi _).2.midiMessages = _
  rw [midiLoop_midiMessages]

theorem processBlock_callCount (p : Processor) (t : Int) (clock : Nat → Int)
    (buffer : AudioBuffer) (midi : MidiBuffer) :
    (processBlock p t clock buffer midi).processor.processBlockCallCount
      = wrapInt32 (p.processBlockCallCount + 1) := by
  show wrapInt32 ((midiLoop t clock 0 midi _).2.processBlockCallCount + 1) = _
  rw [midiLoop_callCount]

theorem processBlock_report_block (p : Processor) (t : Int) (clock : Nat → Int)
    (buffer : AudioBuffer) (midi : MidiBuffer) :
    (processBlock p t clock buffer midi).processor.state.debugInfo.map (fun r => r.block)
      = some p.processBlockCallCount := by
  show some ((midiLoop t clock 0 midi _).2.processBlockCallCount) = _
  rw [midiLoop_callCount]

theorem wrapInt32_of_inRange (x : Int) (h1 : -2147483648 ≤ x) (h2 : x < 2147483648) :
    wrapInt32 x = x := by
  unfold wrapInt32
  omega

theorem runBlocks_append (calls : List BlockCall) (call : BlockCall) (p : Processor) :
    runBlocks (calls ++ [call]) p
      = (processBlock (runBlocks calls p) call.triggerNote call.clock call.buffer
          call.midiMessages).processor := by
  simp [runBlocks, List.foldl_append]

theorem runBlocks_fresh_callCount (calls : List BlockCall) (h : calls.length < 2147483648) :
    (runBlocks calls Processor.fresh).processBlockCallCount = (calls.length : Int) := by
  induction calls using List.reverseRecOn with
  | nil => rfl
  | append_singleton calls call ih =>
    simp only [List.length_append, List.length_singleton] at h
    rw [runBlocks_append, processBlock_callCount, ih (by omega)]
    rw [wrapInt32_of_inRange _ (by omega) (by omega)]
    simp

theorem processBlock_state_gate (p : Processor) (t : Int) (clock : Nat → Int)
    (buffer : AudioBuffer) (midi : MidiBuffer) :
    (processBlock p t clock buffer midi).processor.state.wasNoteOn
        = (midiLoop t clock 0 midi
            ([], { p with
                   state := { p.state with isAudioRunning := true }
                   midiMessages := storeEvents midi [] })).2.state.wasNoteOn
      ∧ (processBlock p t clock buffer midi).processor.state.lastNote
        = (midiLoop t clock 0 midi
            ([], { p with
                   state := { p.state with isAudioRunning := true }
                   midiMessages := storeEvents midi [] })).2.state.lastNote
      ∧ (processBlock p t clock buffer midi).processor.state.timestamp
        = (midiLoop t clock 0 midi
            ([], { p with
                   state := { p.state with isAudioRunning := true }
                   midiMessages := storeEvents midi [] })).2.state.timestamp :=
  ⟨rfl, rfl, rfl⟩

theorem isNoteOn_or_isNoteOff_of_qualifies {t : Int} {ev : MidiMetadata}
    (hq : qualifies t ev = true) :
    ev.message.isNoteOn false = true ∨ ev.message.isNoteOff true = true := by
  unfold qualifies at hq
  simp only [Bool.and_eq_true, Bool.or_eq_true, beq_iff_eq] at hq
  exact hq.1

theorem getVelocity_pos_of_isNoteOn {m : MidiMessage} (h : m.isNoteOn false = true) :
    0 < m.getVelocity := by
  unfold MidiMessage.isNoteOn at h
  unfold MidiMessage.getVelocity MidiMessage.isNoteOnOrOff
  simp at h
  simp [h.1]
  omega

theorem processBlock_gateLevel_of_noteOn (p : Processor) (t : Int) (clock : Nat → Int)
    (buffer : AudioBuffer) (midi : MidiBuffer) (ev : MidiMetadata)
    (hlast : lastQualifying t midi = some ev) (hon : ev.message.isNoteOn false = true) :
    (processBlock p t clock buffer midi).processor.gateLevel
      = (ev.message.getVelocity : ℚ) / 127 := by
  obtain ⟨now, q, hloop⟩ := midiLoop_snd_of_lastQualifying t clock midi ev 0
    ([], { p with
           state := { p.state with isAudioRunning := true }
           midiMessages := storeEvents midi [] }) hlast
  rw [processBlock_gateLevel, hloop,
    gateStep_noteOn t now q ev (qualifies_of_lastQualifying hlast).1 hon]

/-- How one call moves the gate level. -/
theorem processBlock_gateLevel_cases (p : Processor) (t : Int) (clock : Nat → Int)
    (buffer : AudioBuffer) (midi : MidiBuffer) :
    (processBlock p t clock buffer midi).processor.gateLevel = p.gateLevel
      ∨ (processBlock p t clock buffer midi).processor.gateLevel = 0
      ∨ ∃ md ∈ midi, md.message.isNoteOn false = true ∧ md.message.getNoteNumber = t
          ∧ (processBlock p t clock buffer midi).processor.gateLevel
              = (md.message.getVelocity : ℚ) / 127 := by
  cases hl : lastQualifying t midi with
  | none =>
    left
    rw [processBlock_gateLevel,
      midiLoop_snd_of_no_qualifying t clock midi 0 _ ((lastQualifying_eq_none_iff t midi).1 hl)]
  | some ev =>
    have hq := qualifies_of_lastQualifying hl
    obtain ⟨now, q, hloop⟩ := midiLoop_snd_of_lastQualifying t clock midi ev 0
      ([], { p with
             state := { p.state with isAudioRunning := true }
             midiMessages := storeEvents midi [] }) hl
    rcases isNoteOn_or_isNoteOff_of_qualifies hq.1 with hon | hoff
    · right; right
      refine ⟨ev, hq.2, hon, ?_, ?_⟩
      · have := hq.1
        unfold qualifies at this
        simp only [Bool.and_eq_true, beq_iff_eq] at this
        exact this.2
      · rw [processBlock_gateLevel, hloop, gateStep_noteOn t now q ev hq.1 hon]
    · right; left
      rw [processBlock_gateLevel, hloop, gateStep_noteOff t now q ev hq.1 hoff]

theorem gateStep_consistent (t now : Int) (q : Processor) (m : MidiMessage)
    (h : GateConsistent q) : GateConsistent (gateStep t now q m) := by
  unfold gateStep
  split
  · rename_i hc
    simp only [Bool.and_eq_true] at hc
    have hv := getVelocity_pos_of_isNoteOn hc.1
    unfold GateConsistent
    simp only [true_iff]
    have : (0 : ℚ) < (m.getVelocity : ℚ) := by exact_mod_cast hv
    positivity
  · split
    · unfold GateConsistent
      simp
    · exact h

theorem midiLoop_consistent (t : Int) (clock : Nat → Int) (midi : MidiBuffer) :
    ∀ (i : Nat) (acc : MidiBuffer × Processor),
      GateConsistent acc.2 → GateConsistent (midiLoop t clock i midi acc).2 := by
  induction midi with
  | nil => intro i acc h; exact h
  | cons md rest ih =>
    intro i acc h
    simp only [midiLoop]
    exact ih _ _ (gateStep_consistent _ _ _ _ h)

theorem processBlock_consistent (p : Processor) (t : Int) (clock : Nat → Int)
    (buffer : AudioBuffer) (midi : MidiBuffer) (h : GateConsistent p) :
    GateConsistent (processBlock p t clock buffer midi).processor := by
  unfold GateConsistent
  rw [processBlock_gateLevel, (processBlock_state_gate p t clock buffer midi).1]
  exact midiLoop_consistent t clock midi 0 _ h

theorem gateStep_gateCore (t now now' : Int) (q q' : Processor) (m : MidiMessage)
    (h : gateCore q = gateCore q') :
    gateCore (gateStep t now q m) = gateCore (gateStep t now' q' m) := by
  unfold gateCore at h
  simp only [Prod.mk.injEq] at h
  unfold gateStep
  split
  · simp [gateCore]
  · split
    · simp [gateCore, h.2.2]
    · simp [gateCore, h]

theorem midiLoop_gateCore (t : Int) (clock clock' : Nat → Int) (midi : MidiBuffer) :
    ∀ (i j : Nat) (acc acc' : MidiBuffer × Processor),
      gateCore acc.2 = gateCore acc'.2 →
        gateCore (midiLoop t clock i midi acc).2 = gateCore (midiLoop t clock' j midi acc').2 := by
  induction midi with
  | nil => intro i j acc acc' h; exact h
  | cons md rest ih =>
    intro i j acc acc' h
    simp only [midiLoop]
    exact ih _ _ _ _ (gateStep_gateCore _ _ _ _ _ _ h)

theorem midiLoop_append (t : Int) (clock : Nat → Int) (a b : MidiBuffer) :
    ∀ (i : Nat) (acc : MidiBuffer × Processor),
      midiLoop t clock i (a ++ b) acc
        = midiLoop t clock (i + a.length) b (midiLoop t clock i a acc) := by
  induction a with
  | nil => intro i acc; rfl
  | cons md rest ih =>
    intro i acc
    have h1 : midiLoop t clock i ((md :: rest) ++ b) acc
        = midiLoop t clock (i + 1) (rest ++ b)
            (acc.1.addEvent md.message md.samplePosition,
             gateStep t (clock i) acc.2 md.message) := rfl
    have h2 : midiLoop t clock i (md :: rest) acc
        = midiLoop t clock (i + 1) rest
            (acc.1.addEvent md.message md.samplePosition,
             gateStep t (clock i) acc.2 md.message) := rfl
    rw [h1, h2, ih, List.length_cons]
    congr 1
    omega

theorem processBlock_gateCore (p : Processor) (t : Int) (clock : Nat → Int)
    (buffer : AudioBuffer) (midi : MidiBuffer) :
    gateCore (processBlock p t clock buffer midi).processor
      = gateCore (midiLoop t clock 0 midi
          ([], { p with
                 state := { p.state with isAudioRunning := true }
                 midiMessages := storeEvents midi [] })).2 := rfl

/-- Where the level of a reachable processor comes from: it is 0 or the scaled
velocity of a note-on on the trigger note in one of the batches. -/
theorem runBlocks_gateLevel_origin (calls : List BlockCall) :
    (runBlocks calls Processor.fresh).gateLevel = 0
      ∨ ∃ call ∈ calls, ∃ md ∈ call.midiMessages,
          md.message.isNoteOn false = true
            ∧ md.message.getNoteNumber = call.triggerNote
            ∧ (runBlocks calls Processor.fresh).gateLevel = (md.message.getVelocity : ℚ) / 127 := by
  induction calls using List.reverseRecOn with
  | nil => left; rfl
  | append_singleton calls call ih =>
    rw [runBlocks_append]
    rcases processBlock_gateLevel_cases (runBlocks calls Processor.fresh) call.triggerNote
        call.clock call.buffer call.midiMessages with h | h | ⟨md, hmd, hon, hn, h⟩
    · rw [h]
      rcases ih with h0 | ⟨c, hc, md, hmd, hon, hn, hv⟩
      · left; exact h0
      · right
        exact ⟨c, List.mem_append_left _ hc, md, hmd, hon, hn, hv⟩
    · left; exact h
    · right
      exact ⟨call, by simp, md, hmd, hon, hn, h⟩

/-! ## Properties of `processBlock` -/

/-- Claim C1. When the last event of the batch that is a note-on or note-off on the
trigger note is a note-on (status byte `0x9n`, any velocity), then after
`processBlock` the gate level is `velocity / 127` and every sample of every channel
is the input sample times `velocity / 127`, for every prior state, every trigger
note, every clock and every audio block. -/
theorem noteOn_sets_level_and_scales_block (p : Processor) (triggerNote : Int)
    (clock : Nat → Int) (buffer : AudioBuffer) (midi : MidiBuffer) (ev : MidiMetadata)
    (hlast : lastQualifying triggerNote midi = some ev)
    (hon : ev.message.isNoteOn true = true) :
    (processBlock p triggerNote clock buffer midi).processor.gateLevel
        = (ev.message.getVelocity : ℚ) / 127
      ∧ (processBlock p triggerNote clock buffer midi).buffer
        = buffer.map (fun channelData =>
            channelData.map (fun sample => sample * ((ev.message.getVelocity : ℚ) / 127))) := by
  have hq := (qualifies_of_lastQualifying hlast).1
  have hlevel : (processBlock p triggerNote clock buffer midi).processor.gateLevel
      = (ev.message.getVelocity : ℚ) / 127 := by
    rw [processBlock_gateLevel]
    obtain ⟨now, q, hloop⟩ := midiLoop_snd_of_lastQualifying triggerNote clock midi ev 0 _ hlast
    rw [hloop]
    exact gateStep_noteOn_wire triggerNote now q ev hq hon
  refine ⟨hlevel, ?_⟩
  rw [processBlock_buffer, hlevel]
  exact applyGate_eq_scale _ (by positivity) buffer

/-- Scenario of C1: trigger note 60, batch `[NoteOn(60, vel 127, pos 0)]`, block
`[1,1,1,1]` per channel: level 1 and the block unchanged. -/
theorem noteOn_sets_level_and_scales_block_witness :
    lastQualifying 60 [⟨⟨0x90, 60, 127⟩, 0⟩] = some ⟨⟨0x90, 60, 127⟩, 0⟩
      ∧ (processBlock Processor.fresh 60 (fun _ => 0) [[1, 1, 1, 1], [1, 1, 1, 1]]
          [⟨⟨0x90, 60, 127⟩, 0⟩]).processor.gateLevel = 1
      ∧ (processBlock Processor.fresh 60 (fun _ => 0) [[1, 1, 1, 1], [1, 1, 1, 1]]
          [⟨⟨0x90, 60, 127⟩, 0⟩]).buffer = [[1, 1, 1, 1], [1, 1, 1, 1]] := by
  have h := noteOn_sets_level_and_scales_block Processor.fresh 60 (fun _ => 0)
    [[1, 1, 1, 1], [1, 1, 1, 1]] [⟨⟨0x90, 60, 127⟩, 0⟩] ⟨⟨0x90, 60, 127⟩, 0⟩
    (by decide) (by decide)
  have hv : (MidiMessage.getVelocity ⟨0x90, 60, 127⟩ : ℚ) / 127 = 1 := by
    have h127 : MidiMessage.getVelocity ⟨0x90, 60, 127⟩ = 127 := by decide
    rw [h127]; norm_num
  refine ⟨by decide, ?_, ?_⟩
  · rw [h.1]; exact hv
  · rw [h.2]; simp only [hv]; simp

/-- Claim C2. When the last event of the batch that is a note-on or note-off on the
trigger note is a note-off (as `isNoteOff()` tests it), then after `processBlock`
the gate level is 0 and every sample of every channel is 0, whatever the prior
state and whatever the sample position of the note-off. -/
theorem noteOff_closes_and_silences_block (p : Processor) (triggerNote : Int)
    (clock : Nat → Int) (buffer : AudioBuffer) (midi : MidiBuffer) (ev : MidiMetadata)
    (hlast : lastQualifying triggerNote midi = some ev)
    (hoff : ev.message.isNoteOff true = true) :
    (processBlock p triggerNote clock buffer midi).processor.gateLevel = 0
      ∧ (processBlock p triggerNote clock buffer midi).buffer
        = buffer.map (fun channelData => channelData.map (fun _ => 0)) := by
  have hq := (qualifies_of_lastQualifying hlast).1
  have hlevel : (processBlock p triggerNote clock buffer midi).processor.gateLevel = 0 := by
    rw [processBlock_gateLevel]
    obtain ⟨now, q, hloop⟩ := midiLoop_snd_of_lastQualifying triggerNote clock midi ev 0 _ hlast
    rw [hloop, gateStep_noteOff triggerNote now q ev hq hoff]
  refine ⟨hlevel, ?_⟩
  rw [processBlock_buffer, hlevel]
  simp [applyGate]

/-- Scenario of C2: trigger note 60, prior level 1 (left by a note-on of velocity
127), batch `[NoteOff(60, pos 2)]`, block `[1,1,1,1]`: level 0 and four zeros. -/
theorem noteOff_closes_and_silences_block_witness :
    lastQualifying 60 [⟨⟨0x80, 60, 0⟩, 2⟩] = some ⟨⟨0x80, 60, 0⟩, 2⟩
      ∧ (processBlock
          (processBlock Processor.fresh 60 (fun _ => 0) [[1, 1, 1, 1]]
            [⟨⟨0x90, 60, 127⟩, 0⟩]).processor
          60 (fun _ => 0) [[1, 1, 1, 1]] [⟨⟨0x80, 60, 0⟩, 2⟩]).processor.gateLevel = 0
      ∧ (processBlock
          (processBlock Processor.fresh 60 (fun _ => 0) [[1, 1, 1, 1]]
            [⟨⟨0x90, 60, 127⟩, 0⟩]).processor
          60 (fun _ => 0) [[1, 1, 1, 1]] [⟨⟨0x80, 60, 0⟩, 2⟩]).buffer = [[0, 0, 0, 0]] := by
  have h := noteOff_closes_and_silences_block
    (processBlock Processor.fresh 60 (fun _ => 0) [[1, 1, 1, 1]]
      [⟨⟨0x90, 60, 127⟩, 0⟩]).processor
    60 (fun _ => 0) [[1, 1, 1, 1]] [⟨⟨0x80, 60, 0⟩, 2⟩] ⟨⟨0x80, 60, 0⟩, 2⟩
    (by decide) (by decide)
  refine ⟨by decide, h.1, ?_⟩
  rw [h.2]
  rfl

/-- Claim C3. When no event of the batch (the empty batch included) is a note-on or
note-off on the trigger note, `processBlock` leaves the gate level as it was and
every sample of every channel is the input sample times that level; the prior
level ranges over the non-negative values, which contain the range `[0, 1]` of a
gate level. -/
theorem no_trigger_event_keeps_level (p : Processor) (triggerNote : Int)
    (clock : Nat → Int) (buffer : AudioBuffer) (midi : MidiBuffer)
    (hnone : ∀ md ∈ midi, qualifies triggerNote md = false)
    (hlevel : 0 ≤ p.gateLevel) :
    (processBlock p triggerNote clock buffer midi).processor.gateLevel = p.gateLevel
      ∧ (processBlock p triggerNote clock buffer midi).buffer
        = buffer.map (fun channelData => channelData.map (fun sample => sample * p.gateLevel)) := by
  have hl : (processBlock p triggerNote clock buffer midi).processor.gateLevel = p.gateLevel := by
    rw [processBlock_gateLevel, midiLoop_snd_of_no_qualifying triggerNote clock midi 0 _ hnone]
  refine ⟨hl, ?_⟩
  rw [processBlock_buffer, hl]
  exact applyGate_eq_scale _ hlevel buffer

/-- Scenario of C3: trigger note 60, prior level 1/2, batch
`[NoteOn(72, vel 100, pos 0)]`: the level stays 1/2 and the block is halved. -/
theorem no_trigger_event_keeps_level_witness :
    (∀ md ∈ ([⟨⟨0x90, 72, 100⟩, 0⟩] : MidiBuffer), qualifies 60 md = false)
      ∧ (processBlock { Processor.fresh with gateLevel := 1 / 2 } 60 (fun _ => 0)
          [[1, 1, 1, 1], [2, 2, 2, 2]] [⟨⟨0x90, 72, 100⟩, 0⟩]).processor.gateLevel = 1 / 2
      ∧ (processBlock { Processor.fresh with gateLevel := 1 / 2 } 60 (fun _ => 0)
          [[1, 1, 1, 1], [2, 2, 2, 2]] [⟨⟨0x90, 72, 100⟩, 0⟩]).buffer
        = [[1 / 2, 1 / 2, 1 / 2, 1 / 2], [1, 1, 1, 1]] := by
  have hq : ∀ md ∈ ([⟨⟨0x90, 72, 100⟩, 0⟩] : MidiBuffer), qualifies 60 md = false := by decide
  have hpos : (0 : ℚ) ≤ ({ Processor.fresh with gateLevel := 1 / 2 } : Processor).gateLevel := by
    show (0 : ℚ) ≤ 1 / 2
    norm_num
  have h := no_trigger_event_keeps_level { Processor.fresh with gateLevel := 1 / 2 } 60
    (fun _ => 0) [[1, 1, 1, 1], [2, 2, 2, 2]] [⟨⟨0x90, 72, 100⟩, 0⟩] hq hpos
  refine ⟨hq, h.1, ?_⟩
  rw [h.2]
  norm_num

/-- Claim C4. MIDI pass-through: for a batch ordered by non-decreasing sample
position, the MIDI buffer that `processBlock` hands back to the caller is the
input batch itself: the same messages at the same positions in the same order,
for every prior state and every trigger note. -/
theorem midi_pass_through (p : Processor) (triggerNote : Int) (clock : Nat → Int)
    (buffer : AudioBuffer) (midi : MidiBuffer) (hord : MidiBuffer.Ordered midi) :
    (processBlock p triggerNote clock buffer midi).midiMessages = midi := by
  rw [processBlock_midiMessages]
  have h := storeEvents_of_ordered midi [] (by simpa using hord)
  simpa using h

/-- Instance of C4: four events, two of them at position 0 and two on the trigger
note, come back unchanged. -/
theorem midi_pass_through_witness :
    MidiBuffer.Ordered
        [⟨⟨0x90, 72, 100⟩, 0⟩, ⟨⟨0x90, 60, 127⟩, 0⟩, ⟨⟨0xB0, 7, 64⟩, 1⟩, ⟨⟨0x80, 60, 0⟩, 3⟩]
      ∧ (processBlock Processor.fresh 60 (fun _ => 0) [[1, 1, 1, 1], [1, 1, 1, 1]]
          [⟨⟨0x90, 72, 100⟩, 0⟩, ⟨⟨0x90, 60, 127⟩, 0⟩, ⟨⟨0xB0, 7, 64⟩, 1⟩,
            ⟨⟨0x80, 60, 0⟩, 3⟩]).midiMessages
        = [⟨⟨0x90, 72, 100⟩, 0⟩, ⟨⟨0x90, 60, 127⟩, 0⟩, ⟨⟨0xB0, 7, 64⟩, 1⟩, ⟨⟨0x80, 60, 0⟩, 3⟩] :=
  ⟨by decide, midi_pass_through _ _ _ _ _ (by decide)⟩

/-- Claim C5. Gate-level invariant: a new processor has level 0, and after any
sequence of `processBlock` calls whose events carry velocities of at most 127 the
level is 0 or `v / 127` for the velocity `v` of a note-on on the trigger note in
one of the processed batches; hence the level lies in `[0, 1]`. -/
theorem gate_level_zero_or_velocity (calls : List BlockCall)
    (hvel : ∀ call ∈ calls, ∀ md ∈ call.midiMessages, md.message.getVelocity ≤ 127) :
    Processor.fresh.gateLevel = 0
      ∧ ((runBlocks calls Processor.fresh).gateLevel = 0
          ∨ ∃ call ∈ calls, ∃ md ∈ call.midiMessages,
              md.message.isNoteOn false = true
                ∧ md.message.getNoteNumber = call.triggerNote
                ∧ (runBlocks calls Processor.fresh).gateLevel = (md.message.getVelocity : ℚ) / 127)
      ∧ 0 ≤ (runBlocks calls Processor.fresh).gateLevel
      ∧ (runBlocks calls Processor.fresh).gateLevel ≤ 1 := by
  have key := runBlocks_gateLevel_origin calls
  refine ⟨rfl, key, ?_, ?_⟩
  · rcases key with h0 | ⟨c, _, md, _, _, _, hv⟩
    · rw [h0]
    · rw [hv]; positivity
  · rcases key with h0 | ⟨c, hc, md, hmd, _, _, hv⟩
    · rw [h0]; norm_num
    · rw [hv]
      have h127 : (md.message.getVelocity : ℚ) ≤ 127 := by exact_mod_cast hvel c hc md hmd
      rw [div_le_one (by norm_num)]
      exact h127

/-- Instance of C5: after one block with a note-on of velocity 100 on the trigger
note the level is 100/127, inside `[0, 1]`. -/
theorem gate_level_zero_or_velocity_witness :
    (∀ call ∈ ([⟨60, fun _ => 0, [[1, 1]], [⟨⟨0x90, 60, 100⟩, 0⟩]⟩] : List BlockCall),
        ∀ md ∈ call.midiMessages, md.message.getVelocity ≤ 127)
      ∧ (runBlocks [⟨60, fun _ => 0, [[1, 1]], [⟨⟨0x90, 60, 100⟩, 0⟩]⟩] Processor.fresh).gateLevel
        = 100 / 127
      ∧ 0 ≤ (runBlocks [⟨60, fun _ => 0, [[1, 1]], [⟨⟨0x90, 60, 100⟩, 0⟩]⟩]
              Processor.fresh).gateLevel
      ∧ (runBlocks [⟨60, fun _ => 0, [[1, 1]], [⟨⟨0x90, 60, 100⟩, 0⟩]⟩]
              Processor.fresh).gateLevel ≤ 1 := by
  have hv : ∀ call ∈ ([⟨60, fun _ => 0, [[1, 1]], [⟨⟨0x90, 60, 100⟩, 0⟩]⟩] : List BlockCall),
      ∀ md ∈ call.midiMessages, md.message.getVelocity ≤ 127 := by decide
  have h := gate_level_zero_or_velocity
    [⟨60, fun _ => 0, [[1, 1]], [⟨⟨0x90, 60, 100⟩, 0⟩]⟩] hv
  refine ⟨hv, ?_, h.2.2.1, h.2.2.2⟩
  have hrun : runBlocks [⟨60, fun _ => 0, [[1, 1]], [⟨⟨0x90, 60, 100⟩, 0⟩]⟩] Processor.fresh
      = (processBlock Processor.fresh 60 (fun _ => 0) [[1, 1]]
          [⟨⟨0x90, 60, 100⟩, 0⟩]).processor := rfl
  have hvel : MidiMessage.getVelocity ⟨0x90, 60, 100⟩ = 100 := by decide
  rw [hrun, processBlock_gateLevel_of_noteOn Processor.fresh 60 (fun _ => 0) [[1, 1]]
    [⟨⟨0x90, 60, 100⟩, 0⟩] ⟨⟨0x90, 60, 100⟩, 0⟩ (by decide) (by decide), hvel]
  norm_num

/-- Claim C6. Block counter: it is 0 on a new processor; a `processBlock` call adds
exactly 1 to it and writes its old value as the block number of the snapshot,
whatever the inputs; so the call made after `k` earlier calls on a new processor
reports block `k` and leaves the counter at `k + 1`. The counter is taken below
the largest `int`, where no overflow occurs. -/
theorem block_counter_counts_calls (p : Processor) (calls : List BlockCall) (call : BlockCall)
    (hp : -2147483648 ≤ p.processBlockCallCount ∧ p.processBlockCallCount < 2147483647)
    (hk : calls.length < 2147483647) :
    Processor.fresh.processBlockCallCount = 0
      ∧ (processBlock p call.triggerNote call.clock call.buffer
          call.midiMessages).processor.processBlockCallCount = p.processBlockCallCount + 1
      ∧ (processBlock p call.triggerNote call.clock call.buffer
          call.midiMessages).processor.state.debugInfo.map (fun r => r.block)
          = some p.processBlockCallCount
      ∧ (processBlock (runBlocks calls Processor.fresh) call.triggerNote call.clock call.buffer
          call.midiMessages).processor.state.debugInfo.map (fun r => r.block)
          = some (calls.length : Int)
      ∧ (runBlocks (calls ++ [call]) Processor.fresh).processBlockCallCount
          = (calls.length : Int) + 1 := by
  refine ⟨rfl, ?_, processBlock_report_block _ _ _ _ _, ?_, ?_⟩
  · rw [processBlock_callCount]
    exact wrapInt32_of_inRange _ (by omega) (by omega)
  · rw [processBlock_report_block, runBlocks_fresh_callCount calls (by omega)]
  · have h := runBlocks_fresh_callCount (calls ++ [call])
      (by simp only [List.length_append, List.length_singleton]; omega)
    rw [h]
    simp

/-- Instance of C6: the third call on a new processor reports block 2. -/
theorem block_counter_counts_calls_witness :
    (processBlock
        (runBlocks [⟨60, fun _ => 0, [[1, 1]], [⟨⟨0x90, 60, 127⟩, 0⟩]⟩, ⟨60, fun _ => 0, [[1, 1]], []⟩]
          Processor.fresh)
        60 (fun _ => 0) [[1, 1]] []).processor.state.debugInfo.map (fun r => r.block) = some 2 :=
  (block_counter_counts_calls Processor.fresh
    [⟨60, fun _ => 0, [[1, 1]], [⟨⟨0x90, 60, 127⟩, 0⟩]⟩, ⟨60, fun _ => 0, [[1, 1]], []⟩]
    ⟨60, fun _ => 0, [[1, 1]], []⟩ (by decide) (by decide)).2.2.2.1

/-- Claim C7, as stated, fails: after two consecutive `processBlock` calls with no
drain in between, the editor-facing buffer holds the event of the second block
only; the note-on stored by the first call is gone. -/
theorem editor_buffer_loses_undrained_events :
    (processBlock
        (processBlock Processor.fresh 60 (fun _ => 0) [[1, 1]] [⟨⟨0x90, 60, 127⟩, 0⟩]).processor
        60 (fun _ => 0) [[1, 1]] [⟨⟨0x80, 60, 0⟩, 1⟩]).processor.midiMessages
      = [⟨⟨0x80, 60, 0⟩, 1⟩]
    ∧ (⟨⟨0x90, 60, 127⟩, 0⟩ : MidiMetadata) ∉
        (processBlock
          (processBlock Processor.fresh 60 (fun _ => 0) [[1, 1]] [⟨⟨0x90, 60, 127⟩, 0⟩]).processor
          60 (fun _ => 0) [[1, 1]] [⟨⟨0x80, 60, 0⟩, 1⟩]).processor.midiMessages := by
  decide

/-- Claim C7, amended. `processBlock` replaces the editor-facing buffer: whatever it
held before, after the call it holds exactly the events of this block (a batch
ordered by position, in its order); and the observer's `timerCallback` leaves it
empty. -/
theorem editor_buffer_holds_current_block (p : Processor) (ed : Editor) (triggerNote : Int)
    (clock : Nat → Int) (buffer : AudioBuffer) (midi : MidiBuffer)
    (hord : MidiBuffer.Ordered midi) :
    (processBlock p triggerNote clock buffer midi).processor.midiMessages = midi
      ∧ (timerCallback p ed).1.midiMessages = [] := by
  constructor
  · rw [processBlock_stored_midi]
    have h := storeEvents_of_ordered midi [] (by simpa using hord)
    simpa using h
  · unfold timerCallback
    cases h : p.midiMessages with
    | nil => simp [h]
    | cons a l => simp [h]

/-- Instance of C7 amended: a processor still holding an undrained note-on holds
only the new note-off after the next block. -/
theorem editor_buffer_holds_current_block_witness :
    MidiBuffer.Ordered [⟨⟨0x80, 60, 0⟩, 1⟩]
      ∧ (processBlock { Processor.fresh with midiMessages := [⟨⟨0x90, 60, 127⟩, 0⟩] }
          60 (fun _ => 0) [[1, 1]] [⟨⟨0x80, 60, 0⟩, 1⟩]).processor.midiMessages
        = [⟨⟨0x80, 60, 0⟩, 1⟩]
      ∧ (timerCallback { Processor.fresh with midiMessages := [⟨⟨0x90, 60, 127⟩, 0⟩] }
          ⟨[], 0, false, false, 0, none⟩).1.midiMessages = [] :=
  ⟨by decide,
    editor_buffer_holds_current_block
      { Processor.fresh with midiMessages := [⟨⟨0x90, 60, 127⟩, 0⟩] }
      ⟨[], 0, false, false, 0, none⟩ 60 (fun _ => 0) [[1, 1]] [⟨⟨0x80, 60, 0⟩, 1⟩] (by decide)⟩

/-- Claim C8. Gate metadata follows the scan: (i) when the last qualifying event is
a note-on, `wasNoteOn` is true and `lastNote` is the trigger note; (ii) when it is
a note-off, `wasNoteOn` is false; (iii) when the batch has no qualifying event,
`lastNote`, `wasNoteOn` and the timestamp are unchanged; and a message for another
note leaves the whole processor unchanged in the scan. -/
theorem gate_metadata_follows_scan (p : Processor) (triggerNote : Int) (clock : Nat → Int)
    (buffer : AudioBuffer) (midi : MidiBuffer) :
    (∀ ev, lastQualifying triggerNote midi = some ev → ev.message.isNoteOn false = true →
        (processBlock p triggerNote clock buffer midi).processor.state.wasNoteOn = true
          ∧ (processBlock p triggerNote clock buffer midi).processor.state.lastNote = triggerNote)
      ∧ (∀ ev, lastQualifying triggerNote midi = some ev → ev.message.isNoteOff true = true →
          (processBlock p triggerNote clock buffer midi).processor.state.wasNoteOn = false)
      ∧ (lastQualifying triggerNote midi = none →
          (processBlock p triggerNote clock buffer midi).processor.state.lastNote = p.state.lastNote
            ∧ (processBlock p triggerNote clock buffer midi).processor.state.wasNoteOn
                = p.state.wasNoteOn
            ∧ (processBlock p triggerNote clock buffer midi).processor.state.timestamp
                = p.state.timestamp)
      ∧ (∀ (now : Int) (q : Processor) (message : MidiMessage),
          message.getNoteNumber ≠ triggerNote → gateStep triggerNote now q message = q) := by
  obtain ⟨hw, hn, hts⟩ := processBlock_state_gate p triggerNote clock buffer midi
  refine ⟨?_, ?_, ?_, ?_⟩
  · intro ev hlast hon
    obtain ⟨now, q, hloop⟩ := midiLoop_snd_of_lastQualifying triggerNote clock midi ev 0
      ([], { p with
             state := { p.state with isAudioRunning := true }
             midiMessages := storeEvents midi [] }) hlast
    rw [hw, hn, hloop, gateStep_noteOn triggerNote now q ev (qualifies_of_lastQualifying hlast).1 hon]
    exact ⟨rfl, rfl⟩
  · intro ev hlast hoff
    obtain ⟨now, q, hloop⟩ := midiLoop_snd_of_lastQualifying triggerNote clock midi ev 0
      ([], { p with
             state := { p.state with isAudioRunning := true }
             midiMessages := storeEvents midi [] }) hlast
    rw [hw, hloop, gateStep_noteOff triggerNote now q ev (qualifies_of_lastQualifying hlast).1 hoff]
  · intro hnone
    have hloop := midiLoop_snd_of_no_qualifying triggerNote clock midi 0
      ([], { p with
             state := { p.state with isAudioRunning := true }
             midiMessages := storeEvents midi [] })
      ((lastQualifying_eq_none_iff triggerNote midi).1 hnone)
    rw [hw, hn, hts, hloop]
    exact ⟨rfl, rfl, rfl⟩
  · intro now q message hne
    unfold gateStep
    simp [hne]

/-- Instance of C8 (i): a note-on for note 72 followed by a note-on on trigger note
60 leaves `wasNoteOn` true and `lastNote` 60. -/
theorem gate_metadata_follows_scan_witness :
    lastQualifying 60 [⟨⟨0x90, 72, 100⟩, 0⟩, ⟨⟨0x90, 60, 127⟩, 2⟩] = some ⟨⟨0x90, 60, 127⟩, 2⟩
      ∧ MidiMessage.isNoteOn ⟨0x90, 60, 127⟩ false = true
      ∧ (processBlock Processor.fresh 60 (fun _ => 0) [[1, 1, 1, 1]]
          [⟨⟨0x90, 72, 100⟩, 0⟩, ⟨⟨0x90, 60, 127⟩, 2⟩]).processor.state.wasNoteOn = true
      ∧ (processBlock Processor.fresh 60 (fun _ => 0) [[1, 1, 1, 1]]
          [⟨⟨0x90, 72, 100⟩, 0⟩, ⟨⟨0x90, 60, 127⟩, 2⟩]).processor.state.lastNote = 60 :=
  ⟨by decide, by decide,
    (gate_metadata_follows_scan Processor.fresh 60 (fun _ => 0) [[1, 1, 1, 1]]
      [⟨⟨0x90, 72, 100⟩, 0⟩, ⟨⟨0x90, 60, 127⟩, 2⟩]).1 ⟨⟨0x90, 60, 127⟩, 2⟩ (by decide) (by decide)⟩

/-- Claim C9. Open/closed consistency: after any sequence of `processBlock` calls on
a new processor, `wasNoteOn` is true exactly when the gate level is positive. The
note-on branch is guarded by `isNoteOn()`, which is false at velocity 0: a
velocity-0 note-on on the trigger note, met with the gate open, goes through the
note-off branch and leaves `wasNoteOn` false and the level 0. -/
theorem wasNoteOn_iff_gate_open (calls : List BlockCall) :
    ((runBlocks calls Processor.fresh).state.wasNoteOn = true
        ↔ 0 < (runBlocks calls Processor.fresh).gateLevel)
      ∧ (gateStep 60 0 (runBlocks [⟨60, fun _ => 0, [], [⟨⟨0x90, 60, 100⟩, 0⟩]⟩] Processor.fresh)
          ⟨0x90, 60, 0⟩).state.wasNoteOn = false
      ∧ (gateStep 60 0 (runBlocks [⟨60, fun _ => 0, [], [⟨⟨0x90, 60, 100⟩, 0⟩]⟩] Processor.fresh)
          ⟨0x90, 60, 0⟩).gateLevel = 0 := by
  refine ⟨?_, by decide, ?_⟩
  · induction calls using List.reverseRecOn with
    | nil => simp [Processor.fresh, runBlocks]
    | append_singleton calls call ih =>
      rw [runBlocks_append]
      exact processBlock_consistent _ _ _ _ _ ih
  · rw [gateStep_noteOff 60 0 _ ⟨⟨0x90, 60, 0⟩, 0⟩ (by decide) (by decide)]

/-- Claim C10. Block-splitting independence: with a fixed trigger note, processing
batch `a` in one call and batch `b` in the next leaves the same gate level,
`wasNoteOn` and `lastNote` as processing `a ++ b` in a single call, for every
prior state, every clock and every choice of audio blocks. -/
theorem gate_state_independent_of_block_split (p : Processor) (triggerNote : Int)
    (clockA clockB clockAB : Nat → Int) (bufferA bufferB bufferAB : AudioBuffer)
    (a b : MidiBuffer) :
    (processBlock (processBlock p triggerNote clockA bufferA a).processor
        triggerNote clockB bufferB b).processor.gateLevel
        = (processBlock p triggerNote clockAB bufferAB (a ++ b)).processor.gateLevel
      ∧ (processBlock (processBlock p triggerNote clockA bufferA a).processor
          triggerNote clockB bufferB b).processor.state.wasNoteOn
        = (processBlock p triggerNote clockAB bufferAB (a ++ b)).processor.state.wasNoteOn
      ∧ (processBlock (processBlock p triggerNote clockA bufferA a).processor
          triggerNote clockB bufferB b).processor.state.lastNote
        = (processBlock p triggerNote clockAB bufferAB (a ++ b)).processor.state.lastNote := by
  have hcore : gateCore (processBlock (processBlock p triggerNote clockA bufferA a).processor
        triggerNote clockB bufferB b).processor
      = gateCore (processBlock p triggerNote clockAB bufferAB (a ++ b)).processor := by
    rw [processBlock_gateCore, processBlock_gateCore, midiLoop_append]
    apply midiLoop_gateCore
    show gateCore (processBlock p triggerNote clockA bufferA a).processor = _
    rw [processBlock_gateCore]
    exact midiLoop_gateCore triggerNote clockA clockAB a 0 0 _ _ rfl
  unfold gateCore at hcore
  simp only [Prod.mk.injEq] at hcore
  exact hcore

end MidiVolumeGate
